import Mathlib

/-!
Verification of the PolkaPulse PVM yield-optimizer core.

The Rust sources (src/pvm-modules/src/math_lib.rs, yield_optimizer.rs and the
two precompile dispatch files) are shallowly embedded below.  Machine integers
(u128, u64, u32) are modelled as Nat together with the explicit width limits at
exactly the places the source checks them (checked_mul, checked_add,
checked_sub, checked_div) or truncates them (the `as u32` / `as u64` casts,
modelled as `% 2 ^ 32` / `% 2 ^ 64`).  Fallible Rust functions returning
`Result<T, MathError>` become `Except MathError`.
-/

set_option maxHeartbeats 1000000
set_option maxRecDepth 100000

deriving instance DecidableEq for Except

namespace PolkaPulse

/-- Width limit of a Rust u128: a value is representable iff it is `< U128_LIMIT`. -/
def U128_LIMIT : Nat := 2 ^ 128

/-- Width limit of a Rust u64. -/
def U64_LIMIT : Nat := 2 ^ 64

/-- Width limit of a Rust u32. -/
def U32_LIMIT : Nat := 2 ^ 32

/-- `u32::MAX`, used by the range check in `annualize`. -/
def U32_MAX : Nat := 2 ^ 32 - 1

/-- Fixed-point precision denominator (18 decimal places), from math_lib.rs. -/
def PRECISION : Nat := 1000000000000000000

/-- Basis-points denominator: 10000 BPS = 100%, from math_lib.rs. -/
def BPS_DENOMINATOR : Nat := 10000

/-- Seconds in a standard 365-day year, from math_lib.rs. -/
def SECONDS_PER_YEAR : Nat := 31536000

/-- Maximum permitted risk score, from math_lib.rs. -/
def MAX_RISK_SCORE : Nat := 10000

/-- The `MathError` enum of math_lib.rs. -/
inductive MathError where
  | overflow
  | underflow
  | divisionByZero
  | invalidInput
deriving DecidableEq, Repr

/-- `MathResult<T>` of math_lib.rs. -/
abbrev MathResult (α : Type) := Except MathError α

/-- Rust `a.checked_mul(b).ok_or(MathError::Overflow)` on u128 operands:
every call site of `checked_mul` in the embedded sources pairs it with
`MathError::Overflow`. -/
def checked_mul (a b : Nat) : MathResult Nat :=
  if a * b < U128_LIMIT then .ok (a * b) else .error .overflow

/-- Rust `a.checked_add(b).ok_or(MathError::Overflow)` on u128 operands. -/
def checked_add (a b : Nat) : MathResult Nat :=
  if a + b < U128_LIMIT then .ok (a + b) else .error .overflow

/-- Rust `a.checked_sub(b).ok_or(MathError::Underflow)` (width independent:
unsigned subtraction fails exactly when the subtrahend exceeds the minuend). -/
def checked_sub (a b : Nat) : MathResult Nat :=
  if b ≤ a then .ok (a - b) else .error .underflow

/-- Rust `a.checked_div(b).ok_or(MathError::DivisionByZero)` (width
independent: unsigned division fails exactly on a zero divisor). -/
def checked_div (a b : Nat) : MathResult Nat :=
  if b = 0 then .error .divisionByZero else .ok (a / b)

/-- The per-step iteration of `compound` (math_lib.rs lines 102-108):
`periods` rounds of `amount = amount * numerator_factor / denominator_factor`,
each round checked. -/
def compoundLoop (num den : Nat) : Nat → Nat → MathResult Nat
  | 0, amount => .ok amount
  | k + 1, amount => do
    let m ← checked_mul amount num
    let a ← checked_div m den
    compoundLoop num den k a

/-- math_lib.rs `compound(principal, rate_bps, periods)`. -/
def compound (principal rate_bps periods : Nat) : MathResult Nat :=
  if principal = 0 then .ok 0
  else if rate_bps = 0 ∨ periods = 0 then .ok principal
  else do
    let denominator_factor ← checked_mul BPS_DENOMINATOR periods
    let numerator_factor ← checked_add denominator_factor rate_bps
    compoundLoop numerator_factor denominator_factor periods principal

/-- math_lib.rs `annualize(rate_bps, period_seconds)`. -/
def annualize (rate_bps period_seconds : Nat) : MathResult Nat :=
  if period_seconds = 0 then .error .divisionByZero
  else do
    let m ← checked_mul rate_bps SECONDS_PER_YEAR
    let annual ← checked_div m period_seconds
    if U32_MAX < annual then .error .overflow else .ok annual

/-- math_lib.rs `fee_adjusted_yield(gross_yield, fee_bps)`. -/
def fee_adjusted_yield (gross_yield fee_bps : Nat) : MathResult Nat :=
  if BPS_DENOMINATOR < fee_bps then .error .invalidInput
  else if gross_yield = 0 ∨ fee_bps = 0 then .ok gross_yield
  else do
    let m ← checked_mul gross_yield fee_bps
    let fee ← checked_div m BPS_DENOMINATOR
    checked_sub gross_yield fee

/-- The checked accumulation loop of math_lib.rs `weighted_average`
(lines 202-210), over the zipped value/weight pairs. -/
def weightedAccum : List (Nat × Nat) → Nat → Nat → MathResult (Nat × Nat)
  | [], weighted_sum, total_weight => .ok (weighted_sum, total_weight)
  | (v, w) :: rest, weighted_sum, total_weight => do
    let product ← checked_mul v w
    let ws ← checked_add weighted_sum product
    let tw ← checked_add total_weight w
    weightedAccum rest ws tw

/-- math_lib.rs `weighted_average(values, weights)`. -/
def weighted_average (values weights : List Nat) : MathResult Nat :=
  if values.isEmpty ∨ values.length ≠ weights.length then .error .invalidInput
  else do
    let (weighted_sum, total_weight) ← weightedAccum (values.zip weights) 0 0
    if total_weight = 0 then .error .divisionByZero
    else checked_div weighted_sum total_weight

/-- math_lib.rs `optimal_split(yield_a_bps, yield_b_bps, risk_a, risk_b)`.
The Rust cast `as u64` of `pct_a` is modelled as `% U64_LIMIT`. -/
def optimal_split (yield_a_bps yield_b_bps risk_a risk_b : Nat) :
    MathResult (Nat × Nat) :=
  if MAX_RISK_SCORE < risk_a ∨ MAX_RISK_SCORE < risk_b then .error .invalidInput
  else do
    let sa ← checked_sub MAX_RISK_SCORE risk_a
    let ma ← checked_mul yield_a_bps sa
    let adj_a ← checked_div ma MAX_RISK_SCORE
    let sb ← checked_sub MAX_RISK_SCORE risk_b
    let mb ← checked_mul yield_b_bps sb
    let adj_b ← checked_div mb MAX_RISK_SCORE
    let total ← checked_add adj_a adj_b
    if total = 0 then .ok (50, 50)
    else do
      let m ← checked_mul adj_a 100
      let q ← checked_div m total
      let pct_b ← checked_sub 100 (q % U64_LIMIT)
      .ok (q % U64_LIMIT, pct_b)

/-- The `OptimizerError` enum of yield_optimizer.rs: either a wrapped
`MathError` or the pipeline-level `InvalidInput`. -/
inductive OptimizerError where
  | math (e : MathError)
  | invalidInput
deriving DecidableEq, Repr

/-- The Rust `?` conversion `From<MathError> for OptimizerError`. -/
def liftMath : MathResult α → Except OptimizerError α
  | .ok v => .ok v
  | .error e => .error (.math e)

/-- yield_optimizer.rs `OptimizerInput` (all fields in source order;
`principal` is a u128, the other seven fields are u32). -/
structure OptimizerInput where
  principal : Nat
  hydradx_apy_bps : Nat
  interlay_apy_bps : Nat
  hydradx_fee_bps : Nat
  interlay_fee_bps : Nat
  hydradx_risk_score : Nat
  interlay_risk_score : Nat
  projection_periods : Nat
deriving DecidableEq, Repr

/-- yield_optimizer.rs `YieldRecommendation`. -/
structure YieldRecommendation where
  use_hydradx : Bool
  use_interlay : Bool
  hydradx_allocation_pct : Nat
  interlay_allocation_pct : Nat
  projected_net_apy_bps : Nat
  expected_yield_dot : Nat
deriving DecidableEq, Repr

/-- yield_optimizer.rs `optimize(input)`: the five-step pipeline.  The three
narrowing casts `as u32` (the two net-APY derivations and the blended APY)
are modelled as `% U32_LIMIT`, exactly where the source casts. -/
def optimize (input : OptimizerInput) : Except OptimizerError YieldRecommendation :=
  if input.principal = 0 then .error .invalidInput
  else if input.projection_periods = 0 then .error .invalidInput
  else if BPS_DENOMINATOR < input.hydradx_fee_bps ∨
      BPS_DENOMINATOR < input.interlay_fee_bps then .error .invalidInput
  else do
    let hydradx_compounded ← liftMath
      (compound input.principal input.hydradx_apy_bps input.projection_periods)
    let hydradx_gross_yield ← liftMath
      (checked_sub hydradx_compounded input.principal)
    let interlay_compounded ← liftMath
      (compound input.principal input.interlay_apy_bps input.projection_periods)
    let interlay_gross_yield ← liftMath
      (checked_sub interlay_compounded input.principal)
    let hydradx_net_yield ← liftMath
      (fee_adjusted_yield hydradx_gross_yield input.hydradx_fee_bps)
    let interlay_net_yield ← liftMath
      (fee_adjusted_yield interlay_gross_yield input.interlay_fee_bps)
    let hm ← liftMath (checked_mul hydradx_net_yield BPS_DENOMINATOR)
    let hydradx_net_apy_raw ← liftMath (checked_div hm input.principal)
    let hydradx_net_apy_bps := hydradx_net_apy_raw % U32_LIMIT
    let im ← liftMath (checked_mul interlay_net_yield BPS_DENOMINATOR)
    let interlay_net_apy_raw ← liftMath (checked_div im input.principal)
    let interlay_net_apy_bps := interlay_net_apy_raw % U32_LIMIT
    let pcts ← liftMath (optimal_split hydradx_net_apy_bps interlay_net_apy_bps
      input.hydradx_risk_score input.interlay_risk_score)
    let hydradx_pct := pcts.1
    let interlay_pct := pcts.2
    let hpm ← liftMath (checked_mul input.principal hydradx_pct)
    let hydradx_principal ← liftMath (checked_div hpm 100)
    let interlay_principal ← liftMath
      (checked_sub input.principal hydradx_principal)
    let hydradx_final ← liftMath
      (compound hydradx_principal hydradx_net_apy_bps input.projection_periods)
    let interlay_final ← liftMath
      (compound interlay_principal interlay_net_apy_bps input.projection_periods)
    let total_final ← liftMath (checked_add hydradx_final interlay_final)
    let expected_yield_dot ← liftMath (checked_sub total_final input.principal)
    let wavg ← liftMath (weighted_average
      [hydradx_net_apy_bps, interlay_net_apy_bps] [hydradx_pct, interlay_pct])
    let blended_apy_bps := wavg % U32_LIMIT
    pure {
      use_hydradx := decide (0 < hydradx_pct)
      use_interlay := decide (0 < interlay_pct)
      hydradx_allocation_pct := hydradx_pct
      interlay_allocation_pct := interlay_pct
      projected_net_apy_bps := blended_apy_bps
      expected_yield_dot := expected_yield_dot }

/-- The same five-step pipeline as `optimize`, but with the three narrowing
`as u32` casts replaced by exact (identity) conversions.  Agreement of
`optimizeExact` with `optimize` on an input expresses that those casts are
value-preserving there. -/
def optimizeExact (input : OptimizerInput) : Except OptimizerError YieldRecommendation :=
  if input.principal = 0 then .error .invalidInput
  else if input.projection_periods = 0 then .error .invalidInput
  else if BPS_DENOMINATOR < input.hydradx_fee_bps ∨
      BPS_DENOMINATOR < input.interlay_fee_bps then .error .invalidInput
  else do
    let hydradx_compounded ← liftMath
      (compound input.principal input.hydradx_apy_bps input.projection_periods)
    let hydradx_gross_yield ← liftMath
      (checked_sub hydradx_compounded input.principal)
    let interlay_compounded ← liftMath
      (compound input.principal input.interlay_apy_bps input.projection_periods)
    let interlay_gross_yield ← liftMath
      (checked_sub interlay_compounded input.principal)
    let hydradx_net_yield ← liftMath
      (fee_adjusted_yield hydradx_gross_yield input.hydradx_fee_bps)
    let interlay_net_yield ← liftMath
      (fee_adjusted_yield interlay_gross_yield input.interlay_fee_bps)
    let hm ← liftMath (checked_mul hydradx_net_yield BPS_DENOMINATOR)
    let hydradx_net_apy_bps ← liftMath (checked_div hm input.principal)
    let im ← liftMath (checked_mul interlay_net_yield BPS_DENOMINATOR)
    let interlay_net_apy_bps ← liftMath (checked_div im input.principal)
    let pcts ← liftMath (optimal_split hydradx_net_apy_bps interlay_net_apy_bps
      input.hydradx_risk_score input.interlay_risk_score)
    let hydradx_pct := pcts.1
    let interlay_pct := pcts.2
    let hpm ← liftMath (checked_mul input.principal hydradx_pct)
    let hydradx_principal ← liftMath (checked_div hpm 100)
    let interlay_principal ← liftMath
      (checked_sub input.principal hydradx_principal)
    let hydradx_final ← liftMath
      (compound hydradx_principal hydradx_net_apy_bps input.projection_periods)
    let interlay_final ← liftMath
      (compound interlay_principal interlay_net_apy_bps input.projection_periods)
    let total_final ← liftMath (checked_add hydradx_final interlay_final)
    let expected_yield_dot ← liftMath (checked_sub total_final input.principal)
    let blended_apy_bps ← liftMath (weighted_average
      [hydradx_net_apy_bps, interlay_net_apy_bps] [hydradx_pct, interlay_pct])
    pure {
      use_hydradx := decide (0 < hydradx_pct)
      use_interlay := decide (0 < interlay_pct)
      hydradx_allocation_pct := hydradx_pct
      interlay_allocation_pct := interlay_pct
      projected_net_apy_bps := blended_apy_bps
      expected_yield_dot := expected_yield_dot }

/-- Error code 1, shared by abi.rs and both precompiles. -/
def ERR_INVALID_INPUT : Nat := 1

/-- Error code 2. -/
def ERR_OVERFLOW : Nat := 2

/-- Error code 3. -/
def ERR_UNDERFLOW : Nat := 3

/-- Error code 4. -/
def ERR_DIVISION_BY_ZERO : Nat := 4

/-- Error code 5: dispatch-level, unknown 4-byte selector. -/
def ERR_UNKNOWN_SELECTOR : Nat := 5

/-- Error code 6: dispatch-level, malformed or undersized payload. -/
def ERR_DECODE_FAILED : Nat := 6

/-- Big-endian value of a byte sequence.  Modelled from the spec: §6 describes
the external ethabi codec as fixed-width big-endian 32-byte words per
argument; this is the word-to-value direction. -/
def wordValue (bs : List Nat) : Nat :=
  bs.foldl (fun acc b => acc * 256 + b) 0

/-- The 32-byte big-endian word holding value `v` (value right-aligned).
Modelled from the spec: §6, the value-to-word direction of the external
ethabi codec. -/
def word32 (v : Nat) : List Nat :=
  (List.range 32).map (fun i => v / 256 ^ (31 - i) % 256)

/-- A Solidity bool word: 0 or 1, right-aligned in a 32-byte word. -/
def boolWord (b : Bool) : List Nat :=
  word32 (if b then 1 else 0)

/-- abi.rs `encode_error(error_code)`: a false bool word followed by the
numeric error-code word. -/
def encode_error (error_code : Nat) : List Nat :=
  boolWord false ++ word32 error_code

/-- abi.rs `encode_yield_recommendation(rec)`: the six fields of the
recommendation, one 32-byte word each, in declared order. -/
def encode_yield_recommendation (rec : YieldRecommendation) : List Nat :=
  boolWord rec.use_hydradx ++ boolWord rec.use_interlay ++
    word32 rec.hydradx_allocation_pct ++ word32 rec.interlay_allocation_pct ++
    word32 rec.projected_net_apy_bps ++ word32 rec.expected_yield_dot

/-- Decode `n` consecutive static 32-byte words.  Modelled from the spec: §6,
the argument-decoding direction of the external ethabi codec for static
arguments (fails on a size mismatch). -/
def decodeWords (n : Nat) (input : List Nat) : Option (List Nat) :=
  if input.length = 32 * n then
    some ((List.range n).map (fun i => wordValue ((input.drop (32 * i)).take 32)))
  else none

/-- abi.rs `decode_optimizer_input(input)`: the eight `OptimizerInput` fields
in source order, each one 32-byte word; `None` on a malformed payload or an
out-of-range field (the width checks stand for ethabi `as_u128` / `as_u32`
conversions, per the function's documented contract). -/
def decode_optimizer_input (input : List Nat) : Option OptimizerInput :=
  match decodeWords 8 input with
  | some [principal, hydradx_apy, interlay_apy, hydradx_fee, interlay_fee,
      hydradx_risk, interlay_risk, periods] =>
    if principal < U128_LIMIT ∧ hydradx_apy < U32_LIMIT ∧
        interlay_apy < U32_LIMIT ∧ hydradx_fee < U32_LIMIT ∧
        interlay_fee < U32_LIMIT ∧ hydradx_risk < U32_LIMIT ∧
        interlay_risk < U32_LIMIT ∧ periods < U32_LIMIT then
      some {
        principal := principal
        hydradx_apy_bps := hydradx_apy
        interlay_apy_bps := interlay_apy
        hydradx_fee_bps := hydradx_fee
        interlay_fee_bps := interlay_fee
        hydradx_risk_score := hydradx_risk
        interlay_risk_score := interlay_risk
        projection_periods := periods }
    else none
  | _ => none

/-- yield_optimizer_precompile.rs `math_error_code` /
math_lib_precompile.rs `math_error_code` (identical tables). -/
def math_error_code : MathError → Nat
  | .invalidInput => ERR_INVALID_INPUT
  | .overflow => ERR_OVERFLOW
  | .underflow => ERR_UNDERFLOW
  | .divisionByZero => ERR_DIVISION_BY_ZERO

/-- yield_optimizer_precompile.rs `optimizer_error_code`. -/
def optimizer_error_code : OptimizerError → Nat
  | .invalidInput => ERR_INVALID_INPUT
  | .math m => math_error_code m

namespace YieldOptimizerPrecompile

/-- The `SEL_OPTIMIZE` selector of yield_optimizer_precompile.rs. -/
def SEL_OPTIMIZE : List Nat := [0x6f, 0x7a, 0x8b, 0x9c]

/-- yield_optimizer_precompile.rs `call(input)`: selector dispatch around the
single `optimize` operation. -/
def call (input : List Nat) : List Nat :=
  if input.length < 4 then encode_error ERR_DECODE_FAILED
  else if input.take 4 ≠ SEL_OPTIMIZE then encode_error ERR_UNKNOWN_SELECTOR
  else
    match decode_optimizer_input (input.drop 4) with
    | none => encode_error ERR_DECODE_FAILED
    | some optimizer_input =>
      match optimize optimizer_input with
      | .ok recommendation => boolWord true ++ encode_yield_recommendation recommendation
      | .error e => encode_error (optimizer_error_code e)

end YieldOptimizerPrecompile

namespace MathLibPrecompile

/-- math_lib_precompile.rs `SEL_COMPOUND`. -/
def SEL_COMPOUND : List Nat := [0x1a, 0x2b, 0x3c, 0x4d]

/-- math_lib_precompile.rs `SEL_ANNUALIZE`. -/
def SEL_ANNUALIZE : List Nat := [0x2b, 0x3c, 0x4d, 0x5e]

/-- math_lib_precompile.rs `SEL_FEE_ADJUSTED`. -/
def SEL_FEE_ADJUSTED : List Nat := [0x3c, 0x4d, 0x5e, 0x6f]

/-- math_lib_precompile.rs `SEL_WEIGHTED_AVG`. -/
def SEL_WEIGHTED_AVG : List Nat := [0x4d, 0x5e, 0x6f, 0x7a]

/-- math_lib_precompile.rs `SEL_OPTIMAL_SPLIT`. -/
def SEL_OPTIMAL_SPLIT : List Nat := [0x5e, 0x6f, 0x7a, 0x8b]

/-- math_lib_precompile.rs `handle_compound(args)`. -/
def handle_compound (args : List Nat) : List Nat :=
  match decodeWords 3 args with
  | some [principal, rate_bps, periods] =>
    if principal < U128_LIMIT ∧ rate_bps < U32_LIMIT ∧ periods < U32_LIMIT then
      match compound principal rate_bps periods with
      | .ok result => boolWord true ++ word32 result
      | .error e => encode_error (math_error_code e)
    else encode_error ERR_DECODE_FAILED
  | _ => encode_error ERR_DECODE_FAILED

/-- math_lib_precompile.rs `handle_annualize(args)`. -/
def handle_annualize (args : List Nat) : List Nat :=
  match decodeWords 2 args with
  | some [rate_bps, period_seconds] =>
    if rate_bps < U32_LIMIT ∧ period_seconds < U64_LIMIT then
      match annualize rate_bps period_seconds with
      | .ok result => boolWord true ++ word32 result
      | .error e => encode_error (math_error_code e)
    else encode_error ERR_DECODE_FAILED
  | _ => encode_error ERR_DECODE_FAILED

/-- math_lib_precompile.rs `handle_fee_adjusted_yield(args)`. -/
def handle_fee_adjusted_yield (args : List Nat) : List Nat :=
  match decodeWords 2 args with
  | some [gross_yield, fee_bps] =>
    if gross_yield < U128_LIMIT ∧ fee_bps < U32_LIMIT then
      match fee_adjusted_yield gross_yield fee_bps with
      | .ok result => boolWord true ++ word32 result
      | .error e => encode_error (math_error_code e)
    else encode_error ERR_DECODE_FAILED
  | _ => encode_error ERR_DECODE_FAILED

/-- Read one length-prefixed dynamic uint128 array at byte offset `off` of
`args`.  Modelled from the spec: §6, arrays are length-prefixed sequences of
32-byte words reached through the external ethabi codec. -/
def readArray (args : List Nat) (off : Nat) : Option (List Nat) :=
  if off + 32 ≤ args.length then
    let len := wordValue ((args.drop off).take 32)
    if off + 32 + 32 * len ≤ args.length then
      some ((List.range len).map
        (fun i => wordValue ((args.drop (off + 32 + 32 * i)).take 32)))
    else none
  else none

/-- math_lib_precompile.rs `handle_weighted_average(args)`: two dynamic
arrays, located through their two leading offset words. -/
def handle_weighted_average (args : List Nat) : List Nat :=
  if 64 ≤ args.length then
    let off1 := wordValue (args.take 32)
    let off2 := wordValue ((args.drop 32).take 32)
    match readArray args off1, readArray args off2 with
    | some values, some weights =>
      if values.all (· < U128_LIMIT) ∧ weights.all (· < U128_LIMIT) then
        match weighted_average values weights with
        | .ok result => boolWord true ++ word32 result
        | .error e => encode_error (math_error_code e)
      else encode_error ERR_DECODE_FAILED
    | _, _ => encode_error ERR_DECODE_FAILED
  else encode_error ERR_DECODE_FAILED

/-- math_lib_precompile.rs `handle_optimal_split(args)`. -/
def handle_optimal_split (args : List Nat) : List Nat :=
  match decodeWords 4 args with
  | some [yield_a, yield_b, risk_a, risk_b] =>
    if yield_a < U32_LIMIT ∧ yield_b < U32_LIMIT ∧
        risk_a < U32_LIMIT ∧ risk_b < U32_LIMIT then
      match optimal_split yield_a yield_b risk_a risk_b with
      | .ok pcts => boolWord true ++ word32 pcts.1 ++ word32 pcts.2
      | .error e => encode_error (math_error_code e)
    else encode_error ERR_DECODE_FAILED
  | _ => encode_error ERR_DECODE_FAILED

/-- math_lib_precompile.rs `call(input)`: selector dispatch over the five
exposed math operations. -/
def call (input : List Nat) : List Nat :=
  if input.length < 4 then encode_error ERR_DECODE_FAILED
  else if input.take 4 = SEL_COMPOUND then handle_compound (input.drop 4)
  else if input.take 4 = SEL_ANNUALIZE then handle_annualize (input.drop 4)
  else if input.take 4 = SEL_FEE_ADJUSTED then handle_fee_adjusted_yield (input.drop 4)
  else if input.take 4 = SEL_WEIGHTED_AVG then handle_weighted_average (input.drop 4)
  else if input.take 4 = SEL_OPTIMAL_SPLIT then handle_optimal_split (input.drop 4)
  else encode_error ERR_UNKNOWN_SELECTOR

end MathLibPrecompile

/-! ### General lemmas about the embedded checked arithmetic -/

theorem ok_bind {ε α β : Type} (a : α) (f : α → Except ε β) :
    (Except.ok a >>= f) = f a := rfl

theorem error_bind {ε α β : Type} (e : ε) (f : α → Except ε β) :
    ((Except.error e : Except ε α) >>= f) = Except.error e := rfl

theorem bind_eq_ok {ε α β : Type} {x : Except ε α} {f : α → Except ε β} {r : β}
    (h : (x >>= f) = .ok r) : ∃ v, x = .ok v ∧ f v = .ok r := by
  cases x with
  | ok v => exact ⟨v, rfl, h⟩
  | error e => exact Except.noConfusion h

theorem liftMath_ok {α : Type} (v : α) : liftMath (.ok v) = (.ok v : Except OptimizerError α) := rfl

theorem liftMath_error {α : Type} (e : MathError) :
    liftMath (.error e) = (.error (.math e) : Except OptimizerError α) := rfl

theorem liftBind_eq_ok {α β : Type} {x : MathResult α}
    {f : α → Except OptimizerError β} {r : β}
    (h : (liftMath x >>= f) = .ok r) : ∃ v, x = .ok v ∧ f v = .ok r := by
  cases x with
  | ok v => exact ⟨v, rfl, h⟩
  | error e => exact Except.noConfusion h

theorem checked_mul_ok {a b : Nat} (h : a * b < U128_LIMIT) :
    checked_mul a b = .ok (a * b) := by simp [checked_mul, h]

theorem checked_add_ok {a b : Nat} (h : a + b < U128_LIMIT) :
    checked_add a b = .ok (a + b) := by simp [checked_add, h]

theorem checked_sub_ok {a b : Nat} (h : b ≤ a) :
    checked_sub a b = .ok (a - b) := by simp [checked_sub, h]

theorem checked_div_ok {a b : Nat} (h : b ≠ 0) :
    checked_div a b = .ok (a / b) := by simp [checked_div, h]

theorem checked_mul_inv {a b v : Nat} (h : checked_mul a b = .ok v) :
    a * b < U128_LIMIT ∧ v = a * b := by
  unfold checked_mul at h
  split at h
  · exact ⟨by assumption, (Except.ok.inj h).symm⟩
  · exact Except.noConfusion h

theorem checked_add_inv {a b v : Nat} (h : checked_add a b = .ok v) :
    a + b < U128_LIMIT ∧ v = a + b := by
  unfold checked_add at h
  split at h
  · exact ⟨by assumption, (Except.ok.inj h).symm⟩
  · exact Except.noConfusion h

theorem checked_sub_inv {a b v : Nat} (h : checked_sub a b = .ok v) :
    b ≤ a ∧ v = a - b := by
  unfold checked_sub at h
  split at h
  · exact ⟨by assumption, (Except.ok.inj h).symm⟩
  · exact Except.noConfusion h

theorem checked_div_inv {a b v : Nat} (h : checked_div a b = .ok v) :
    b ≠ 0 ∧ v = a / b := by
  unfold checked_div at h
  split at h
  · exact Except.noConfusion h
  · exact ⟨by assumption, (Except.ok.inj h).symm⟩

/-! ### Lemmas about optimal_split -/

/-- Any successful result of `optimal_split` sums to exactly 100: either the
50/50 fallback, or `(pct_a, 100 - pct_a)` where the checked subtraction
succeeding forces `pct_a ≤ 100`. -/
theorem optimal_split_ok_sum {ya yb ra rb a b : Nat}
    (h : optimal_split ya yb ra rb = .ok (a, b)) : a + b = 100 := by
  unfold optimal_split at h
  split at h
  · exact Except.noConfusion h
  obtain ⟨sa, hsa, h⟩ := bind_eq_ok h
  obtain ⟨ma, hma, h⟩ := bind_eq_ok h
  obtain ⟨adj_a, hadj_a, h⟩ := bind_eq_ok h
  obtain ⟨sb, hsb, h⟩ := bind_eq_ok h
  obtain ⟨mb, hmb, h⟩ := bind_eq_ok h
  obtain ⟨adj_b, hadj_b, h⟩ := bind_eq_ok h
  obtain ⟨total, htotal, h⟩ := bind_eq_ok h
  split at h
  · obtain ⟨ha, hb⟩ := Prod.mk.injEq .. ▸ Except.ok.inj h
    omega
  obtain ⟨m, hm, h⟩ := bind_eq_ok h
  obtain ⟨q, hq, h⟩ := bind_eq_ok h
  obtain ⟨pct_b, hpct_b, h⟩ := bind_eq_ok h
  obtain ⟨hle, hval⟩ := checked_sub_inv hpct_b
  obtain ⟨ha, hb⟩ := Prod.mk.injEq .. ▸ Except.ok.inj h
  omega

/-- Risk scores above `MAX_RISK_SCORE` are rejected by the leading guard of
`optimal_split`. -/
theorem optimal_split_invalid {ya yb ra rb : Nat}
    (h : MAX_RISK_SCORE < ra ∨ MAX_RISK_SCORE < rb) :
    optimal_split ya yb ra rb = .error .invalidInput := by
  unfold optimal_split
  rw [if_pos h]

/-- C1: for every call of optimal_split with risk_a ≤ 10000 and
risk_b ≤ 10000 that returns Ok((a, b)), the sum a + b equals exactly 100. -/
theorem optimal_split_sum_eq_100 (ya yb ra rb a b : Nat)
    (hra : ra ≤ 10000) (hrb : rb ≤ 10000)
    (h : optimal_split ya yb ra rb = .ok (a, b)) : a + b = 100 :=
  optimal_split_ok_sum h

/-- Witness for C1 at optimal_split(2000, 1000, 0, 0) = Ok((66, 34)). -/
theorem optimal_split_sum_eq_100_witness :
    optimal_split 2000 1000 0 0 = .ok (66, 34) ∧ 66 + 34 = 100 :=
  ⟨by decide, optimal_split_sum_eq_100 2000 1000 0 0 66 34
    (by decide) (by decide) (by decide)⟩

/-! ### Lemmas about compoundLoop -/

/-- A successful `compoundLoop` run never shrinks the running amount: each
step multiplies by `num ≥ den` before dividing by `den`. -/
theorem compoundLoop_le {num den : Nat} (hden : 0 < den) (hnd : den ≤ num) :
    ∀ k a v, compoundLoop num den k a = .ok v → a ≤ v := by
  intro k
  induction k with
  | zero =>
    intro a v h
    unfold compoundLoop at h
    exact le_of_eq (Except.ok.inj h)
  | succ k ih =>
    intro a v h
    unfold compoundLoop at h
    obtain ⟨m, hm, h⟩ := bind_eq_ok h
    obtain ⟨a2, ha2, h⟩ := bind_eq_ok h
    obtain ⟨hmlt, hmv⟩ := checked_mul_inv hm
    obtain ⟨hdnz, hdv⟩ := checked_div_inv ha2
    subst hmv
    subst hdv
    have step : a ≤ a * num / den := by
      have h1 : a * den ≤ a * num := Nat.mul_le_mul_left a hnd
      calc a = a * den / den := (Nat.mul_div_cancel a hden).symm
        _ ≤ a * num / den := Nat.div_le_div_right h1
    exact le_trans step (ih _ _ h)

/-- A successful `compoundLoop` run at a pointwise-larger step factor
dominates, and the smaller run cannot fail. -/
theorem compoundLoop_mono {den : Nat} (hden : 0 < den) {num1 num2 : Nat}
    (hnum : num1 ≤ num2) :
    ∀ k a1 a2 v2, a1 ≤ a2 → compoundLoop num2 den k a2 = .ok v2 →
      ∃ v1, compoundLoop num1 den k a1 = .ok v1 ∧ v1 ≤ v2 := by
  intro k
  induction k with
  | zero =>
    intro a1 a2 v2 ha h
    unfold compoundLoop at h ⊢
    exact ⟨a1, rfl, le_trans ha (le_of_eq (Except.ok.inj h))⟩
  | succ k ih =>
    intro a1 a2 v2 ha h
    unfold compoundLoop at h ⊢
    obtain ⟨m2, hm2, h⟩ := bind_eq_ok h
    obtain ⟨a2n, ha2n, h⟩ := bind_eq_ok h
    obtain ⟨hm2lt, hm2v⟩ := checked_mul_inv hm2
    obtain ⟨_, ha2nv⟩ := checked_div_inv ha2n
    subst hm2v
    subst ha2nv
    have hmul1 : a1 * num1 < U128_LIMIT :=
      lt_of_le_of_lt (Nat.mul_le_mul ha hnum) hm2lt
    rw [checked_mul_ok hmul1, ok_bind,
      checked_div_ok (Nat.pos_iff_ne_zero.mp hden), ok_bind]
    exact ih _ _ _ (Nat.div_le_div_right (Nat.mul_le_mul ha hnum)) h

/-- Any successful compound run dominates its principal: each loop step
multiplies by `den + r ≥ den` before dividing by `den`. -/
theorem compound_ok_ge {p r n v : Nat} (h : compound p r n = .ok v) :
    p ≤ v := by
  unfold compound at h
  split at h
  case isTrue hp =>
    have := Except.ok.inj h
    omega
  case isFalse hp =>
    split at h
    case isTrue hrn =>
      have := Except.ok.inj h
      omega
    case isFalse hrn =>
      obtain ⟨den, hden, h⟩ := bind_eq_ok h
      obtain ⟨num, hnum, h⟩ := bind_eq_ok h
      obtain ⟨hdenlt, hdenv⟩ := checked_mul_inv hden
      obtain ⟨hnumlt, hnumv⟩ := checked_add_inv hnum
      subst hdenv
      subst hnumv
      have hn : n ≠ 0 := fun hn => hrn (Or.inr hn)
      have hdenpos : 0 < BPS_DENOMINATOR * n :=
        Nat.mul_pos (by norm_num [BPS_DENOMINATOR]) (Nat.pos_of_ne_zero hn)
      exact compoundLoop_le hdenpos (Nat.le_add_right _ _) n p v h

/-- C10: whenever compound(p, r, n) returns Ok(v), the result satisfies
v ≥ p — successful compounding never returns less than the principal,
despite the truncating division at every step. -/
theorem compound_ge_principal (p r n v : Nat) (h : compound p r n = .ok v) :
    p ≤ v :=
  compound_ok_ge h

/-- Witness for C10 at compound(10000, 1000, 1) = Ok(11000). -/
theorem compound_ge_principal_witness :
    compound 10000 1000 1 = .ok 11000 ∧ 10000 ≤ 11000 :=
  ⟨by decide, compound_ge_principal 10000 1000 1 11000 (by decide)⟩

/-- C2 counterexample: compound is not strictly increasing in the number of
periods (it even decreases: compound(10000,1,1) = 10001 but
compound(10000,1,2) = 10000), and not strictly increasing in the rate
(compound(1,1,1) = compound(1,2,1) = 1). -/
theorem compound_not_strictly_monotone :
    compound 10000 1 1 = .ok 10001 ∧ compound 10000 1 2 = .ok 10000 ∧
    compound 1 1 1 = .ok 1 ∧ compound 1 2 1 = .ok 1 := by decide

/-- C2 (amended): compound is only weakly monotone in rate_bps — whenever
r1 ≤ r2 and both calls succeed, the r1 result is at most the r2 result;
monotonicity in the period count fails even weakly (see the
counterexample), because a larger period count both shrinks the per-step
factor and adds truncating divisions. -/
theorem compound_mono_in_rate (p r1 r2 n v1 v2 : Nat) (hr : r1 ≤ r2)
    (h1 : compound p r1 n = .ok v1) (h2 : compound p r2 n = .ok v2) :
    v1 ≤ v2 := by
  unfold compound at h1 h2
  by_cases hp : p = 0
  · rw [if_pos hp] at h1 h2
    have e1 := Except.ok.inj h1
    have e2 := Except.ok.inj h2
    omega
  rw [if_neg hp] at h1 h2
  by_cases hn : n = 0
  · rw [if_pos (Or.inr hn)] at h1 h2
    have e1 := Except.ok.inj h1
    have e2 := Except.ok.inj h2
    omega
  have hdenpos : 0 < BPS_DENOMINATOR * n :=
    Nat.mul_pos (by norm_num [BPS_DENOMINATOR]) (Nat.pos_of_ne_zero hn)
  by_cases hr1 : r1 = 0
  · rw [if_pos (Or.inl hr1)] at h1
    have hv1 : p = v1 := Except.ok.inj h1
    by_cases hr2 : r2 = 0
    · rw [if_pos (Or.inl hr2)] at h2
      have hv2 : p = v2 := Except.ok.inj h2
      omega
    · rw [if_neg (by omega)] at h2
      obtain ⟨den, hden, h2⟩ := bind_eq_ok h2
      obtain ⟨num, hnum, h2⟩ := bind_eq_ok h2
      obtain ⟨_, hdenv⟩ := checked_mul_inv hden
      obtain ⟨_, hnumv⟩ := checked_add_inv hnum
      subst hdenv
      subst hnumv
      have := compoundLoop_le hdenpos (Nat.le_add_right _ _) n p v2 h2
      omega
  · rw [if_neg (by omega)] at h1
    rw [if_neg (by omega)] at h2
    obtain ⟨den1, hden1, h1⟩ := bind_eq_ok h1
    obtain ⟨num1, hnum1, h1⟩ := bind_eq_ok h1
    obtain ⟨den2, hden2, h2⟩ := bind_eq_ok h2
    obtain ⟨num2, hnum2, h2⟩ := bind_eq_ok h2
    obtain ⟨_, hdenv1⟩ := checked_mul_inv hden1
    obtain ⟨_, hnumv1⟩ := checked_add_inv hnum1
    obtain ⟨_, hdenv2⟩ := checked_mul_inv hden2
    obtain ⟨_, hnumv2⟩ := checked_add_inv hnum2
    subst hdenv1
    subst hnumv1
    subst hdenv2
    subst hnumv2
    obtain ⟨v1n, hloop, hle⟩ := compoundLoop_mono hdenpos
      (by omega : BPS_DENOMINATOR * n + r1 ≤ BPS_DENOMINATOR * n + r2)
      n p p v2 le_rfl h2
    rw [h1] at hloop
    have := Except.ok.inj hloop
    omega

/-- Witness for C2 (amended) at p = 10000, r1 = 1000 ≤ r2 = 2000, n = 1. -/
theorem compound_mono_in_rate_witness :
    compound 10000 1000 1 = .ok 11000 ∧ compound 10000 2000 1 = .ok 12000 ∧
    (11000 : Nat) ≤ 12000 :=
  ⟨by decide, by decide, compound_mono_in_rate 10000 1000 2000 1 11000 12000
    (by decide) (by decide) (by decide)⟩

/-! ### annualize -/

/-- C6 counterexample: the claim quantifies over every period_seconds, but at
period_seconds = 0 the zero-period guard fires first, so annualize(0, 0) is
Err(DivisionByZero), not Ok(0). -/
theorem annualize_zero_zero_is_error :
    annualize 0 0 = .error .divisionByZero ∧ annualize 0 0 ≠ .ok 0 := by decide

/-- C6 (amended): a zero input rate annualizes to zero for every nonzero
period_seconds, and annualize fails with DivisionByZero whenever
period_seconds is 0, for every rate. -/
theorem annualize_zero_rate_and_zero_period (r s : Nat) :
    (s ≠ 0 → annualize 0 s = .ok 0) ∧ annualize r 0 = .error .divisionByZero := by
  constructor
  · intro hs
    unfold annualize
    rw [if_neg hs]
    rw [checked_mul_ok (by norm_num [U128_LIMIT] : 0 * SECONDS_PER_YEAR < U128_LIMIT),
      ok_bind]
    simp only [Nat.zero_mul]
    rw [checked_div_ok hs, ok_bind, Nat.zero_div]
    norm_num [U32_MAX]
  · unfold annualize
    rw [if_pos rfl]

/-- Witness for C6 (amended) at r = 5, s = 7. -/
theorem annualize_amended_witness :
    (7 ≠ 0 ∧ annualize 0 7 = .ok 0) ∧ annualize 5 0 = .error .divisionByZero :=
  ⟨⟨by decide, (annualize_zero_rate_and_zero_period 5 7).1 (by decide)⟩,
    (annualize_zero_rate_and_zero_period 5 7).2⟩

/-! ### fee_adjusted_yield -/

/-- C9: for fee_bps ≤ 10000, fee_adjusted_yield never fails with Underflow:
the computed fee gross*fee/10000 never exceeds gross, so the defensively
checked subtraction always succeeds (the only other possible failure on this
range is the overflow of gross*fee, which is classified Overflow). -/
theorem fee_adjusted_yield_no_underflow (g f : Nat) (hf : f ≤ 10000) :
    fee_adjusted_yield g f ≠ .error .underflow := by
  intro h
  unfold fee_adjusted_yield at h
  rw [if_neg (show ¬BPS_DENOMINATOR < f by simp only [BPS_DENOMINATOR]; omega)] at h
  split at h
  · exact Except.noConfusion h
  by_cases hmul : g * f < U128_LIMIT
  · rw [checked_mul_ok hmul, ok_bind] at h
    rw [checked_div_ok (by norm_num [BPS_DENOMINATOR]), ok_bind] at h
    have hle : g * f / BPS_DENOMINATOR ≤ g := by
      have h1 : g * f ≤ g * BPS_DENOMINATOR :=
        Nat.mul_le_mul_left g (by simp only [BPS_DENOMINATOR]; omega)
      calc g * f / BPS_DENOMINATOR ≤ g * BPS_DENOMINATOR / BPS_DENOMINATOR :=
            Nat.div_le_div_right h1
        _ = g := Nat.mul_div_cancel g (by norm_num [BPS_DENOMINATOR])
    rw [checked_sub_ok hle] at h
    exact Except.noConfusion h
  · have hovf : checked_mul g f = .error .overflow := by
      simp [checked_mul, hmul]
    rw [hovf, error_bind] at h
    exact MathError.noConfusion (Except.error.inj h)

/-- Witness for C9 at g = 1000000, f = 50. -/
theorem fee_adjusted_yield_no_underflow_witness :
    (50 : Nat) ≤ 10000 ∧ fee_adjusted_yield 1000000 50 ≠ .error .underflow :=
  ⟨by decide, fee_adjusted_yield_no_underflow 1000000 50 (by decide)⟩

/-! ### optimal_split edge cases -/

/-- C5: with both risk scores in range and both risk-adjusted yields zero,
optimal_split returns the neutral Ok((50, 50)) fallback, not an error. -/
theorem optimal_split_neutral_fallback (ya yb ra rb : Nat)
    (hya : ya < U32_LIMIT) (hyb : yb < U32_LIMIT)
    (hra : ra ≤ 10000) (hrb : rb ≤ 10000)
    (ha : ya * (10000 - ra) / 10000 = 0) (hb : yb * (10000 - rb) / 10000 = 0) :
    optimal_split ya yb ra rb = .ok (50, 50) := by
  have hb1 : ya * (10000 - ra) < U128_LIMIT :=
    lt_of_le_of_lt (Nat.mul_le_mul (le_of_lt hya) (by omega : 10000 - ra ≤ 10000))
      (by norm_num [U32_LIMIT, U128_LIMIT])
  have hb2 : yb * (10000 - rb) < U128_LIMIT :=
    lt_of_le_of_lt (Nat.mul_le_mul (le_of_lt hyb) (by omega : 10000 - rb ≤ 10000))
      (by norm_num [U32_LIMIT, U128_LIMIT])
  have e1 : checked_sub MAX_RISK_SCORE ra = .ok (10000 - ra) :=
    checked_sub_ok (show ra ≤ MAX_RISK_SCORE by simp only [MAX_RISK_SCORE]; omega)
  have e2 : checked_mul ya (10000 - ra) = .ok (ya * (10000 - ra)) :=
    checked_mul_ok hb1
  have e3 : checked_div (ya * (10000 - ra)) MAX_RISK_SCORE = .ok 0 := by
    rw [checked_div_ok (show MAX_RISK_SCORE ≠ 0 by decide)]
    exact congrArg Except.ok ha
  have e4 : checked_sub MAX_RISK_SCORE rb = .ok (10000 - rb) :=
    checked_sub_ok (show rb ≤ MAX_RISK_SCORE by simp only [MAX_RISK_SCORE]; omega)
  have e5 : checked_mul yb (10000 - rb) = .ok (yb * (10000 - rb)) :=
    checked_mul_ok hb2
  have e6 : checked_div (yb * (10000 - rb)) MAX_RISK_SCORE = .ok 0 := by
    rw [checked_div_ok (show MAX_RISK_SCORE ≠ 0 by decide)]
    exact congrArg Except.ok hb
  have e7 : checked_add 0 0 = (.ok 0 : MathResult Nat) := by decide
  unfold optimal_split
  rw [if_neg (show ¬(MAX_RISK_SCORE < ra ∨ MAX_RISK_SCORE < rb) by
    simp only [MAX_RISK_SCORE]; omega)]
  rw [e1, ok_bind, e2, ok_bind, e3, ok_bind, e4, ok_bind, e5, ok_bind, e6,
    ok_bind, e7, ok_bind]
  norm_num

/-- Witness for C5 at yields (7, 0) with risk scores (10000, 0). -/
theorem optimal_split_neutral_fallback_witness :
    optimal_split 7 0 10000 0 = .ok (50, 50) :=
  optimal_split_neutral_fallback 7 0 10000 0 (by decide) (by decide) (by decide)
    (by decide) (by decide) (by decide)

/-! ### optimize validation -/

/-- C4: optimize rejects zero principal, zero projection periods, or a fee
above 10000 BPS with the pipeline-level OptimizerError.invalidInput (not a
wrapped MathError), straight from the leading validation guards. -/
theorem optimize_rejects_invalid_input (input : OptimizerInput)
    (h : input.principal = 0 ∨ input.projection_periods = 0 ∨
      10000 < input.hydradx_fee_bps ∨ 10000 < input.interlay_fee_bps) :
    optimize input = .error .invalidInput := by
  unfold optimize
  split
  · rfl
  split
  · rfl
  split
  · rfl
  rename_i h1 h2 h3
  rcases h with h | h | h | h
  · exact absurd h h1
  · exact absurd h h2
  · exact absurd (Or.inl h) h3
  · exact absurd (Or.inr h) h3

/-- Witness for C4 at a zero-principal input. -/
theorem optimize_rejects_invalid_input_witness :
    optimize
      { principal := 0, hydradx_apy_bps := 1200, interlay_apy_bps := 900,
        hydradx_fee_bps := 50, interlay_fee_bps := 100,
        hydradx_risk_score := 1500, interlay_risk_score := 2500,
        projection_periods := 365 } = .error .invalidInput :=
  optimize_rejects_invalid_input _ (Or.inl rfl)

/-- C8: an out-of-range risk score (> 10000) makes optimal_split fail with
InvalidInput, and consequently optimize never returns Ok for such an input:
the score is rejected at the split step before any allocation arithmetic. -/
theorem risk_out_of_range_never_ok :
    (∀ ya yb ra rb : Nat, 10000 < ra ∨ 10000 < rb →
      optimal_split ya yb ra rb = .error .invalidInput) ∧
    (∀ (input : OptimizerInput) (rec : YieldRecommendation),
      10000 < input.hydradx_risk_score ∨ 10000 < input.interlay_risk_score →
      optimize input ≠ .ok rec) := by
  constructor
  · intro ya yb ra rb h
    exact optimal_split_invalid h
  · intro input rec h hok
    unfold optimize at hok
    split at hok
    · exact Except.noConfusion hok
    split at hok
    · exact Except.noConfusion hok
    split at hok
    · exact Except.noConfusion hok
    obtain ⟨v1, _, hok⟩ := liftBind_eq_ok hok
    obtain ⟨v2, _, hok⟩ := liftBind_eq_ok hok
    obtain ⟨v3, _, hok⟩ := liftBind_eq_ok hok
    obtain ⟨v4, _, hok⟩ := liftBind_eq_ok hok
    obtain ⟨v5, _, hok⟩ := liftBind_eq_ok hok
    obtain ⟨v6, _, hok⟩ := liftBind_eq_ok hok
    obtain ⟨v7, _, hok⟩ := liftBind_eq_ok hok
    obtain ⟨v8, _, hok⟩ := liftBind_eq_ok hok
    obtain ⟨v9, _, hok⟩ := liftBind_eq_ok hok
    obtain ⟨v10, _, hok⟩ := liftBind_eq_ok hok
    obtain ⟨v11, hsplit, hok⟩ := liftBind_eq_ok hok
    rw [optimal_split_invalid h] at hsplit
    exact Except.noConfusion hsplit

/-- Witness for C8 at risk_a = 10001 and a concrete optimizer input. -/
theorem risk_out_of_range_never_ok_witness :
    (10000 < 10001 ∨ 10000 < (0 : Nat)) ∧
    optimal_split 1000 900 10001 0 = .error .invalidInput ∧
    optimize
      { principal := 1000, hydradx_apy_bps := 1200, interlay_apy_bps := 900,
        hydradx_fee_bps := 50, interlay_fee_bps := 100,
        hydradx_risk_score := 10001, interlay_risk_score := 2500,
        projection_periods := 3 } ≠
      .ok
      { use_hydradx := true, use_interlay := true, hydradx_allocation_pct := 50,
        interlay_allocation_pct := 50, projected_net_apy_bps := 0,
        expected_yield_dot := 0 } :=
  ⟨Or.inl (by decide),
    risk_out_of_range_never_ok.1 1000 900 10001 0 (Or.inl (by decide)),
    risk_out_of_range_never_ok.2 _ _ (Or.inl (by decide))⟩

/-- C7: a payload shorter than 4 bytes makes both precompile entry points
return the uniform failure encoding with code 6 (DecodeFailed); a payload of
at least 4 bytes whose selector matches no exposed operation yields code 5
(UnknownSelector); in both cases the equations show the output is the error
encoding alone, with no core function involved; and the core error-code
tables only ever produce codes 1 through 4. -/
theorem boundary_dispatch_errors :
    (∀ input : List Nat, input.length < 4 →
      YieldOptimizerPrecompile.call input = encode_error ERR_DECODE_FAILED ∧
      MathLibPrecompile.call input = encode_error ERR_DECODE_FAILED) ∧
    (∀ input : List Nat, 4 ≤ input.length →
      input.take 4 ≠ YieldOptimizerPrecompile.SEL_OPTIMIZE →
      YieldOptimizerPrecompile.call input = encode_error ERR_UNKNOWN_SELECTOR) ∧
    (∀ input : List Nat, 4 ≤ input.length →
      input.take 4 ≠ MathLibPrecompile.SEL_COMPOUND →
      input.take 4 ≠ MathLibPrecompile.SEL_ANNUALIZE →
      input.take 4 ≠ MathLibPrecompile.SEL_FEE_ADJUSTED →
      input.take 4 ≠ MathLibPrecompile.SEL_WEIGHTED_AVG →
      input.take 4 ≠ MathLibPrecompile.SEL_OPTIMAL_SPLIT →
      MathLibPrecompile.call input = encode_error ERR_UNKNOWN_SELECTOR) ∧
    (∀ e : MathError, 1 ≤ math_error_code e ∧ math_error_code e ≤ 4) ∧
    (∀ e : OptimizerError, 1 ≤ optimizer_error_code e ∧ optimizer_error_code e ≤ 4) := by
  refine ⟨?_, ?_, ?_, ?_, ?_⟩
  · intro input hlen
    constructor
    · unfold YieldOptimizerPrecompile.call
      rw [if_pos hlen]
    · unfold MathLibPrecompile.call
      rw [if_pos hlen]
  · intro input hlen hsel
    unfold YieldOptimizerPrecompile.call
    rw [if_neg (by omega), if_pos hsel]
  · intro input hlen h1 h2 h3 h4 h5
    unfold MathLibPrecompile.call
    rw [if_neg (by omega), if_neg h1, if_neg h2, if_neg h3, if_neg h4, if_neg h5]
  · intro e
    cases e <;> simp [math_error_code, ERR_INVALID_INPUT, ERR_OVERFLOW,
      ERR_UNDERFLOW, ERR_DIVISION_BY_ZERO]
  · intro e
    cases e with
    | invalidInput => simp [optimizer_error_code, ERR_INVALID_INPUT]
    | math m =>
      cases m <;> simp [optimizer_error_code, math_error_code,
        ERR_INVALID_INPUT, ERR_OVERFLOW, ERR_UNDERFLOW, ERR_DIVISION_BY_ZERO]

/-- Witness for C7 at the undersized payload [1] and the unknown selector
[0, 0, 0, 0]. -/
theorem boundary_dispatch_errors_witness :
    ([1] : List Nat).length < 4 ∧
    YieldOptimizerPrecompile.call [1] = encode_error ERR_DECODE_FAILED ∧
    MathLibPrecompile.call [1] = encode_error ERR_DECODE_FAILED ∧
    YieldOptimizerPrecompile.call [0, 0, 0, 0] = encode_error ERR_UNKNOWN_SELECTOR ∧
    MathLibPrecompile.call [0, 0, 0, 0] = encode_error ERR_UNKNOWN_SELECTOR ∧
    1 ≤ math_error_code .overflow ∧ math_error_code .overflow ≤ 4 ∧
    1 ≤ optimizer_error_code .invalidInput ∧ optimizer_error_code .invalidInput ≤ 4 :=
  ⟨by decide,
    (boundary_dispatch_errors.1 [1] (by decide)).1,
    (boundary_dispatch_errors.1 [1] (by decide)).2,
    boundary_dispatch_errors.2.1 [0, 0, 0, 0] (by decide) (by decide),
    boundary_dispatch_errors.2.2.1 [0, 0, 0, 0] (by decide) (by decide)
      (by decide) (by decide) (by decide) (by decide),
    (boundary_dispatch_errors.2.2.2.1 .overflow).1,
    (boundary_dispatch_errors.2.2.2.1 .overflow).2,
    (boundary_dispatch_errors.2.2.2.2 .invalidInput).1,
    (boundary_dispatch_errors.2.2.2.2 .invalidInput).2⟩

/-! ### Growth bounds for compound on the documented input range -/

theorem exp_one_le_three : Real.exp 1 ≤ 3 :=
  le_trans (le_of_lt Real.exp_one_lt_d9) (by norm_num)

theorem exp_two_le_nine : Real.exp 2 ≤ 9 := by
  have h : Real.exp 2 = Real.exp 1 * Real.exp 1 := by
    rw [← Real.exp_add]; norm_num
  have h1 : Real.exp 1 ≤ 3 := exp_one_le_three
  have h0 : 0 < Real.exp 1 := Real.exp_pos 1
  nlinarith

/-- `(n + c)^n ≤ B * n^n` whenever `exp c ≤ B`, by
`(1 + c/n)^n ≤ exp(c/n)^n = exp c`. -/
theorem nat_pow_add_le {n c B : Nat} (hn : 0 < n) (hB : Real.exp c ≤ B) :
    (n + c) ^ n ≤ B * n ^ n := by
  have hn0 : (0 : ℝ) < (n : ℝ) := by exact_mod_cast hn
  have key : ((n : ℝ) + c) ≤ n * Real.exp ((c : ℝ) / n) := by
    have h1 : (c : ℝ) / n + 1 ≤ Real.exp ((c : ℝ) / n) := Real.add_one_le_exp _
    have h2 : (n : ℝ) * ((c : ℝ) / n + 1) = (n : ℝ) + c := by
      field_simp
      ring
    calc (n : ℝ) + c = n * ((c : ℝ) / n + 1) := h2.symm
      _ ≤ n * Real.exp ((c : ℝ) / n) :=
        mul_le_mul_of_nonneg_left h1 (le_of_lt hn0)
  have hpow : ((n : ℝ) + c) ^ n ≤ ((n : ℝ) * Real.exp ((c : ℝ) / n)) ^ n :=
    pow_le_pow_left₀ (by positivity) key n
  have hexp : ((n : ℝ) * Real.exp ((c : ℝ) / n)) ^ n = (n : ℝ) ^ n * Real.exp c := by
    have hc : (n : ℝ) * ((c : ℝ) / n) = c := by field_simp
    rw [mul_pow, ← Real.exp_nat_mul, hc]
  have hfinal : ((n : ℝ) + c) ^ n ≤ (B : ℝ) * (n : ℝ) ^ n := by
    calc ((n : ℝ) + c) ^ n ≤ (n : ℝ) ^ n * Real.exp c := hexp ▸ hpow
      _ ≤ (n : ℝ) ^ n * B := mul_le_mul_of_nonneg_left hB (by positivity)
      _ = (B : ℝ) * (n : ℝ) ^ n := by ring
  exact_mod_cast hfinal

theorem pow_succ_le_three_mul {n : Nat} (hn : 0 < n) :
    (n + 1) ^ n ≤ 3 * n ^ n :=
  nat_pow_add_le hn (by push_cast; exact exp_one_le_three)

theorem pow_add_two_le_nine_mul {n : Nat} (hn : 0 < n) :
    (n + 2) ^ n ≤ 9 * n ^ n :=
  nat_pow_add_le hn (by push_cast; exact exp_two_le_nine)

/-- The compound loop succeeds and stays below `B` as long as the invariant
`a * num^k ≤ B * den^k` holds and `B * num` fits in a u128. -/
theorem compoundLoop_ok_of_bound {num den B : Nat} (hden : 0 < den)
    (hnd : den ≤ num) (hB : B * num < U128_LIMIT) :
    ∀ k a, a * num ^ k ≤ B * den ^ k →
      ∃ v, compoundLoop num den k a = .ok v ∧ v ≤ B := by
  intro k
  induction k with
  | zero =>
    intro a ha
    simp only [pow_zero, Nat.mul_one] at ha
    exact ⟨a, rfl, ha⟩
  | succ k ih =>
    intro a hbound
    have hnum_pos : 0 < num := lt_of_lt_of_le hden hnd
    have hpow_pos : 0 < num ^ (k + 1) := Nat.pow_pos hnum_pos
    have ha : a ≤ B := by
      have h2 : den ^ (k + 1) ≤ num ^ (k + 1) := Nat.pow_le_pow_left hnd _
      have h3 : a * num ^ (k + 1) ≤ B * num ^ (k + 1) :=
        le_trans hbound (Nat.mul_le_mul_left B h2)
      exact Nat.le_of_mul_le_mul_right h3 hpow_pos
    have hmul : a * num < U128_LIMIT :=
      lt_of_le_of_lt (Nat.mul_le_mul_right num ha) hB
    unfold compoundLoop
    rw [checked_mul_ok hmul, ok_bind,
      checked_div_ok (Nat.pos_iff_ne_zero.mp hden), ok_bind]
    apply ih
    have hstep : a * num / den * den ≤ a * num := Nat.div_mul_le_self _ _
    have hchain : a * num / den * num ^ k * den ≤ B * den ^ k * den := by
      calc a * num / den * num ^ k * den
          = a * num / den * den * num ^ k := by ring
        _ ≤ a * num * num ^ k := Nat.mul_le_mul_right _ hstep
        _ = a * num ^ (k + 1) := by ring
        _ ≤ B * den ^ (k + 1) := hbound
        _ = B * den ^ k * den := by ring
    exact Nat.le_of_mul_le_mul_right hchain hden

/-- compound succeeds and is bounded by `B` under the loop invariant at the
starting amount `p`. -/
theorem compound_ok_of_bound {p r n B : Nat} (hn : 0 < n)
    (hbound : p * (BPS_DENOMINATOR * n + r) ^ n ≤ B * (BPS_DENOMINATOR * n) ^ n)
    (hBmul : B * (BPS_DENOMINATOR * n + r) < U128_LIMIT) :
    ∃ v, compound p r n = .ok v ∧ v ≤ B := by
  by_cases hp : p = 0
  · refine ⟨0, ?_, Nat.zero_le B⟩
    unfold compound
    rw [if_pos hp]
  have hden_pos : 0 < BPS_DENOMINATOR * n :=
    Nat.mul_pos (by norm_num [BPS_DENOMINATOR]) hn
  by_cases hr : r = 0
  · refine ⟨p, ?_, ?_⟩
    · unfold compound
      rw [if_neg hp, if_pos (Or.inl hr)]
    · have hb2 := hbound
      rw [hr, Nat.add_zero] at hb2
      exact Nat.le_of_mul_le_mul_right hb2 (Nat.pow_pos hden_pos)
  have hcond : ¬(r = 0 ∨ n = 0) := by omega
  have hBpos : 0 < B := by
    rcases Nat.eq_zero_or_pos B with hB0 | h
    · exfalso
      rw [hB0, Nat.zero_mul] at hbound
      have hfac : 0 < (BPS_DENOMINATOR * n + r) ^ n := Nat.pow_pos (by omega)
      have := Nat.mul_pos (Nat.pos_of_ne_zero hp) hfac
      omega
    · exact h
  have hfac_lt : BPS_DENOMINATOR * n + r < U128_LIMIT := by
    calc BPS_DENOMINATOR * n + r = 1 * (BPS_DENOMINATOR * n + r) :=
        (Nat.one_mul _).symm
      _ ≤ B * (BPS_DENOMINATOR * n + r) := Nat.mul_le_mul_right _ hBpos
      _ < U128_LIMIT := hBmul
  unfold compound
  rw [if_neg hp, if_neg hcond]
  rw [checked_mul_ok (lt_of_le_of_lt (Nat.le_add_right _ r) hfac_lt), ok_bind]
  rw [checked_add_ok hfac_lt, ok_bind]
  exact compoundLoop_ok_of_bound hden_pos (Nat.le_add_right _ _) hBmul n p hbound

/-- On the documented range (principal ≤ 1e9 at precision scale, rate ≤
10000 BPS, 1 ≤ periods ≤ 365) compound always succeeds and grows the amount
by strictly less than a factor e < 3. -/
theorem compound_ok_range {p r n : Nat} (hp : p ≤ 10 ^ 27) (hr : r ≤ 10000)
    (hn1 : 0 < n) (hn2 : n ≤ 365) :
    ∃ v, compound p r n = .ok v ∧ v ≤ 3 * p := by
  apply compound_ok_of_bound hn1
  · have h1 : BPS_DENOMINATOR * n + r ≤ BPS_DENOMINATOR * (n + 1) := by
      simp only [BPS_DENOMINATOR]
      omega
    calc p * (BPS_DENOMINATOR * n + r) ^ n
        ≤ p * (BPS_DENOMINATOR * (n + 1)) ^ n :=
          Nat.mul_le_mul_left p (Nat.pow_le_pow_left h1 n)
      _ = p * (BPS_DENOMINATOR ^ n * (n + 1) ^ n) := by rw [mul_pow]
      _ ≤ p * (BPS_DENOMINATOR ^ n * (3 * n ^ n)) :=
          Nat.mul_le_mul_left p
            (Nat.mul_le_mul_left _ (pow_succ_le_three_mul hn1))
      _ = 3 * p * (BPS_DENOMINATOR ^ n * n ^ n) := by ring
      _ = 3 * p * (BPS_DENOMINATOR * n) ^ n := by rw [mul_pow]
  · calc 3 * p * (BPS_DENOMINATOR * n + r)
        ≤ 3 * 10 ^ 27 * (BPS_DENOMINATOR * 365 + 10000) := by
          apply Nat.mul_le_mul (by omega)
          simp only [BPS_DENOMINATOR]
          omega
      _ < U128_LIMIT := by norm_num [BPS_DENOMINATOR, U128_LIMIT]

/-- Same, for rates up to 20000 BPS (as the derived net APYs can exceed
10000): growth below a factor e^2 < 9. -/
theorem compound_ok_range9 {p r n : Nat} (hp : p ≤ 10 ^ 27) (hr : r ≤ 20000)
    (hn1 : 0 < n) (hn2 : n ≤ 365) :
    ∃ v, compound p r n = .ok v ∧ v ≤ 9 * p := by
  apply compound_ok_of_bound hn1
  · have h1 : BPS_DENOMINATOR * n + r ≤ BPS_DENOMINATOR * (n + 2) := by
      simp only [BPS_DENOMINATOR]
      omega
    calc p * (BPS_DENOMINATOR * n + r) ^ n
        ≤ p * (BPS_DENOMINATOR * (n + 2)) ^ n :=
          Nat.mul_le_mul_left p (Nat.pow_le_pow_left h1 n)
      _ = p * (BPS_DENOMINATOR ^ n * (n + 2) ^ n) := by rw [mul_pow]
      _ ≤ p * (BPS_DENOMINATOR ^ n * (9 * n ^ n)) :=
          Nat.mul_le_mul_left p
            (Nat.mul_le_mul_left _ (pow_add_two_le_nine_mul hn1))
      _ = 9 * p * (BPS_DENOMINATOR ^ n * n ^ n) := by ring
      _ = 9 * p * (BPS_DENOMINATOR * n) ^ n := by rw [mul_pow]
  · calc 9 * p * (BPS_DENOMINATOR * n + r)
        ≤ 9 * 10 ^ 27 * (BPS_DENOMINATOR * 365 + 20000) := by
          apply Nat.mul_le_mul (by omega)
          simp only [BPS_DENOMINATOR]
          omega
      _ < U128_LIMIT := by norm_num [BPS_DENOMINATOR, U128_LIMIT]

/-- Division by a positive divisor is bounded by any cofactor bound. -/
theorem div_bound {x p c : Nat} (hp : p ≠ 0) (h : x ≤ p * c) : x / p ≤ c := by
  calc x / p ≤ p * c / p := Nat.div_le_div_right h
    _ = c := Nat.mul_div_cancel_left c (Nat.pos_of_ne_zero hp)

/-- fee_adjusted_yield succeeds whenever the fee is in range and the fee
product fits in a u128, and never exceeds the gross figure. -/
theorem fee_adjusted_yield_ok {g f : Nat} (hf : f ≤ 10000)
    (hmul : g * f < U128_LIMIT) :
    ∃ v, fee_adjusted_yield g f = .ok v ∧ v ≤ g := by
  unfold fee_adjusted_yield
  rw [if_neg (show ¬BPS_DENOMINATOR < f by simp only [BPS_DENOMINATOR]; omega)]
  by_cases h0 : g = 0 ∨ f = 0
  · rw [if_pos h0]
    exact ⟨g, rfl, le_refl g⟩
  rw [if_neg h0]
  rw [checked_mul_ok hmul, ok_bind]
  rw [checked_div_ok (by norm_num [BPS_DENOMINATOR]), ok_bind]
  have hle : g * f / BPS_DENOMINATOR ≤ g := by
    have h1 : g * f ≤ g * BPS_DENOMINATOR :=
      Nat.mul_le_mul_left g (by simp only [BPS_DENOMINATOR]; omega)
    calc g * f / BPS_DENOMINATOR ≤ g * BPS_DENOMINATOR / BPS_DENOMINATOR :=
        Nat.div_le_div_right h1
      _ = g := Nat.mul_div_cancel g (by norm_num [BPS_DENOMINATOR])
  rw [checked_sub_ok hle]
  exact ⟨g - g * f / BPS_DENOMINATOR, rfl, Nat.sub_le g _⟩

/-- The risk-adjusted yield never exceeds the raw yield. -/
theorem adj_le (y r : Nat) :
    y * (MAX_RISK_SCORE - r) / MAX_RISK_SCORE ≤ y := by
  have h1 : y * (MAX_RISK_SCORE - r) ≤ y * MAX_RISK_SCORE :=
    Nat.mul_le_mul_left y (Nat.sub_le _ _)
  calc y * (MAX_RISK_SCORE - r) / MAX_RISK_SCORE
      ≤ y * MAX_RISK_SCORE / MAX_RISK_SCORE := Nat.div_le_div_right h1
    _ = y := Nat.mul_div_cancel y (by norm_num [MAX_RISK_SCORE])

/-- optimal_split succeeds on in-range risk scores and moderate yields, with
percentages summing to 100 and each at most 100. -/
theorem optimal_split_ok_range {ya yb ra rb : Nat} (hya : ya ≤ 20000)
    (hyb : yb ≤ 20000) (hra : ra ≤ 10000) (hrb : rb ≤ 10000) :
    ∃ a b, optimal_split ya yb ra rb = .ok (a, b) ∧ a + b = 100 ∧
      a ≤ 100 ∧ b ≤ 100 := by
  have hma : ya * (MAX_RISK_SCORE - ra) < U128_LIMIT :=
    lt_of_le_of_lt
      (Nat.mul_le_mul hya (show MAX_RISK_SCORE - ra ≤ 10000 by
        simp only [MAX_RISK_SCORE]; omega))
      (by norm_num [U128_LIMIT])
  have hmb : yb * (MAX_RISK_SCORE - rb) < U128_LIMIT :=
    lt_of_le_of_lt
      (Nat.mul_le_mul hyb (show MAX_RISK_SCORE - rb ≤ 10000 by
        simp only [MAX_RISK_SCORE]; omega))
      (by norm_num [U128_LIMIT])
  unfold optimal_split
  rw [if_neg (show ¬(MAX_RISK_SCORE < ra ∨ MAX_RISK_SCORE < rb) by
    simp only [MAX_RISK_SCORE]; omega)]
  rw [checked_sub_ok (show ra ≤ MAX_RISK_SCORE by
    simp only [MAX_RISK_SCORE]; omega), ok_bind]
  rw [checked_mul_ok hma, ok_bind]
  rw [checked_div_ok (show MAX_RISK_SCORE ≠ 0 by decide), ok_bind]
  rw [checked_sub_ok (show rb ≤ MAX_RISK_SCORE by
    simp only [MAX_RISK_SCORE]; omega), ok_bind]
  rw [checked_mul_ok hmb, ok_bind]
  rw [checked_div_ok (show MAX_RISK_SCORE ≠ 0 by decide), ok_bind]
  set A := ya * (MAX_RISK_SCORE - ra) / MAX_RISK_SCORE with hA
  set B := yb * (MAX_RISK_SCORE - rb) / MAX_RISK_SCORE with hB
  have hAle : A ≤ 20000 := le_trans (adj_le ya ra) hya
  have hBle : B ≤ 20000 := le_trans (adj_le yb rb) hyb
  rw [checked_add_ok (show A + B < U128_LIMIT from
    lt_of_le_of_lt (by omega : A + B ≤ 40000) (by norm_num [U128_LIMIT])), ok_bind]
  by_cases htot : A + B = 0
  · rw [if_pos htot]
    exact ⟨50, 50, rfl, by norm_num, by norm_num, by norm_num⟩
  rw [if_neg htot]
  rw [checked_mul_ok (show A * 100 < U128_LIMIT from
    lt_of_le_of_lt (by omega : A * 100 ≤ 2000000) (by norm_num [U128_LIMIT])),
    ok_bind]
  rw [checked_div_ok htot, ok_bind]
  have hq_le : A * 100 / (A + B) ≤ 100 := by
    have h1 : A * 100 ≤ (A + B) * 100 :=
      Nat.mul_le_mul_right 100 (Nat.le_add_right A B)
    calc A * 100 / (A + B) ≤ (A + B) * 100 / (A + B) := Nat.div_le_div_right h1
      _ = 100 := Nat.mul_div_cancel_left 100 (Nat.pos_of_ne_zero htot)
  have hmod : A * 100 / (A + B) % U64_LIMIT = A * 100 / (A + B) :=
    Nat.mod_eq_of_lt (lt_of_le_of_lt hq_le (by norm_num [U64_LIMIT]))
  rw [hmod, checked_sub_ok hq_le, ok_bind]
  exact ⟨A * 100 / (A + B), 100 - A * 100 / (A + B), rfl, by omega, hq_le, by omega⟩

/-- weighted_average on a concrete pair of values/weights with weights
summing to 100 and values at most 20000 succeeds and stays at most 20000. -/
theorem weighted_average_pair_ok {v1 v2 w1 w2 : Nat} (hv1 : v1 ≤ 20000)
    (hv2 : v2 ≤ 20000) (hw : w1 + w2 = 100) :
    ∃ v, weighted_average [v1, v2] [w1, w2] = .ok v ∧ v ≤ 20000 := by
  have hw1 : w1 ≤ 100 := by omega
  have hw2 : w2 ≤ 100 := by omega
  unfold weighted_average
  rw [if_neg (by simp)]
  have hzip : ([v1, v2].zip [w1, w2]) = [(v1, w1), (v2, w2)] := rfl
  rw [hzip]
  unfold weightedAccum
  rw [checked_mul_ok (show v1 * w1 < U128_LIMIT from
    lt_of_le_of_lt (Nat.mul_le_mul hv1 hw1) (by norm_num [U128_LIMIT])), ok_bind]
  rw [checked_add_ok (show 0 + v1 * w1 < U128_LIMIT from
    lt_of_le_of_lt (by nlinarith : 0 + v1 * w1 ≤ 20000 * 100)
      (by norm_num [U128_LIMIT])), ok_bind]
  rw [checked_add_ok (show 0 + w1 < U128_LIMIT from
    lt_of_le_of_lt (by omega : 0 + w1 ≤ 100) (by norm_num [U128_LIMIT])), ok_bind]
  unfold weightedAccum
  rw [checked_mul_ok (show v2 * w2 < U128_LIMIT from
    lt_of_le_of_lt (Nat.mul_le_mul hv2 hw2) (by norm_num [U128_LIMIT])), ok_bind]
  rw [checked_add_ok (show 0 + v1 * w1 + v2 * w2 < U128_LIMIT from
    lt_of_le_of_lt (by nlinarith : 0 + v1 * w1 + v2 * w2 ≤ 4000000)
      (by norm_num [U128_LIMIT])), ok_bind]
  rw [checked_add_ok (show 0 + w1 + w2 < U128_LIMIT from
    lt_of_le_of_lt (by omega : 0 + w1 + w2 ≤ 100) (by norm_num [U128_LIMIT])),
    ok_bind]
  unfold weightedAccum
  rw [ok_bind]
  dsimp only
  rw [if_neg (by omega : ¬0 + w1 + w2 = 0)]
  rw [checked_div_ok (by omega : 0 + w1 + w2 ≠ 0)]
  refine ⟨(0 + v1 * w1 + v2 * w2) / (0 + w1 + w2), rfl, ?_⟩
  have hnum : 0 + v1 * w1 + v2 * w2 ≤ (0 + w1 + w2) * 20000 := by nlinarith
  exact div_bound (by omega) hnum

/-- C3: on the documented input range (principal ≤ 1e9 at the 18-decimal
precision scale, APY and fee rates ≤ 10000 BPS, risk scores ≤ 10000,
projection periods in [1, 365]) optimize agrees with the cast-free pipeline
optimizeExact — so the u128-to-u32 casts of the net APYs and the blended APY
are value-preserving — and it either returns a recommendation or the
explicit InvalidInput rejection of a zero principal; no step wraps. -/
theorem optimize_safe_on_documented_range (input : OptimizerInput)
    (hp : input.principal ≤ 10 ^ 27)
    (hr1 : input.hydradx_apy_bps ≤ 10000)
    (hr2 : input.interlay_apy_bps ≤ 10000)
    (hf1 : input.hydradx_fee_bps ≤ 10000)
    (hf2 : input.interlay_fee_bps ≤ 10000)
    (hk1 : input.hydradx_risk_score ≤ 10000)
    (hk2 : input.interlay_risk_score ≤ 10000)
    (hn1 : 1 ≤ input.projection_periods)
    (hn2 : input.projection_periods ≤ 365) :
    optimize input = optimizeExact input ∧
      ((input.principal = 0 ∧ optimize input = .error .invalidInput) ∨
        ∃ rec, optimize input = .ok rec) := by
  by_cases hp0 : input.principal = 0
  · have hL : optimize input = .error .invalidInput := by
      unfold optimize
      rw [if_pos hp0]
    have hR : optimizeExact input = .error .invalidInput := by
      unfold optimizeExact
      rw [if_pos hp0]
    exact ⟨hL.trans hR.symm, Or.inl ⟨hp0, hL⟩⟩
  · have hn0 : ¬input.projection_periods = 0 := by omega
    have hfee : ¬(BPS_DENOMINATOR < input.hydradx_fee_bps ∨
        BPS_DENOMINATOR < input.interlay_fee_bps) := by
      simp only [BPS_DENOMINATOR]
      omega
    obtain ⟨ch, ech, lch⟩ := compound_ok_range hp hr1 (by omega) hn2
    obtain ⟨ci, eci, lci⟩ := compound_ok_range hp hr2 (by omega) hn2
    have hgeh : input.principal ≤ ch := compound_ok_ge ech
    have hgei : input.principal ≤ ci := compound_ok_ge eci
    have esub1 : checked_sub ch input.principal = .ok (ch - input.principal) :=
      checked_sub_ok hgeh
    have esub2 : checked_sub ci input.principal = .ok (ci - input.principal) :=
      checked_sub_ok hgei
    have hgross1 : ch - input.principal ≤ 2 * input.principal := by omega
    have hgross2 : ci - input.principal ≤ 2 * input.principal := by omega
    have hm1 : (ch - input.principal) * input.hydradx_fee_bps < U128_LIMIT := by
      have hb : (ch - input.principal) * input.hydradx_fee_bps ≤
          2 * 10 ^ 27 * 10000 := Nat.mul_le_mul (by omega) hf1
      exact lt_of_le_of_lt hb (by norm_num [U128_LIMIT])
    have hm2 : (ci - input.principal) * input.interlay_fee_bps < U128_LIMIT := by
      have hb : (ci - input.principal) * input.interlay_fee_bps ≤
          2 * 10 ^ 27 * 10000 := Nat.mul_le_mul (by omega) hf2
      exact lt_of_le_of_lt hb (by norm_num [U128_LIMIT])
    obtain ⟨nh, enh, lnh⟩ := fee_adjusted_yield_ok hf1 hm1
    obtain ⟨ni, eni, lni⟩ := fee_adjusted_yield_ok hf2 hm2
    have lnh2 : nh ≤ 2 * input.principal := le_trans lnh hgross1
    have lni2 : ni ≤ 2 * input.principal := le_trans lni hgross2
    have emul1 : checked_mul nh BPS_DENOMINATOR = .ok (nh * BPS_DENOMINATOR) := by
      apply checked_mul_ok
      have hb : nh * BPS_DENOMINATOR ≤ 2 * 10 ^ 27 * 10000 :=
        Nat.mul_le_mul (by omega) (by norm_num [BPS_DENOMINATOR])
      exact lt_of_le_of_lt hb (by norm_num [U128_LIMIT])
    have emul2 : checked_mul ni BPS_DENOMINATOR = .ok (ni * BPS_DENOMINATOR) := by
      apply checked_mul_ok
      have hb : ni * BPS_DENOMINATOR ≤ 2 * 10 ^ 27 * 10000 :=
        Nat.mul_le_mul (by omega) (by norm_num [BPS_DENOMINATOR])
      exact lt_of_le_of_lt hb (by norm_num [U128_LIMIT])
    have ediv1 : checked_div (nh * BPS_DENOMINATOR) input.principal =
        .ok (nh * BPS_DENOMINATOR / input.principal) := checked_div_ok hp0
    have ediv2 : checked_div (ni * BPS_DENOMINATOR) input.principal =
        .ok (ni * BPS_DENOMINATOR / input.principal) := checked_div_ok hp0
    have hqh_le : nh * BPS_DENOMINATOR / input.principal ≤ 20000 := by
      apply div_bound hp0
      calc nh * BPS_DENOMINATOR ≤ 2 * input.principal * BPS_DENOMINATOR :=
          Nat.mul_le_mul_right _ lnh2
        _ = input.principal * 20000 := by
          simp only [BPS_DENOMINATOR]
          ring
    have hqi_le : ni * BPS_DENOMINATOR / input.principal ≤ 20000 := by
      apply div_bound hp0
      calc ni * BPS_DENOMINATOR ≤ 2 * input.principal * BPS_DENOMINATOR :=
          Nat.mul_le_mul_right _ lni2
        _ = input.principal * 20000 := by
          simp only [BPS_DENOMINATOR]
          ring
    have emod1 : nh * BPS_DENOMINATOR / input.principal % U32_LIMIT =
        nh * BPS_DENOMINATOR / input.principal :=
      Nat.mod_eq_of_lt (lt_of_le_of_lt hqh_le (by norm_num [U32_LIMIT]))
    have emod2 : ni * BPS_DENOMINATOR / input.principal % U32_LIMIT =
        ni * BPS_DENOMINATOR / input.principal :=
      Nat.mod_eq_of_lt (lt_of_le_of_lt hqi_le (by norm_num [U32_LIMIT]))
    obtain ⟨pa, pb, esplit, hsum, hpa, hpb⟩ :=
      optimal_split_ok_range hqh_le hqi_le hk1 hk2
    have emul3 : checked_mul input.principal pa = .ok (input.principal * pa) := by
      apply checked_mul_ok
      have hb : input.principal * pa ≤ 10 ^ 27 * 100 := Nat.mul_le_mul hp hpa
      exact lt_of_le_of_lt hb (by norm_num [U128_LIMIT])
    have ediv3 : checked_div (input.principal * pa) 100 =
        .ok (input.principal * pa / 100) := checked_div_ok (by norm_num)
    have hprh : input.principal * pa / 100 ≤ input.principal := by
      have h1 : input.principal * pa ≤ input.principal * 100 :=
        Nat.mul_le_mul_left _ hpa
      calc input.principal * pa / 100 ≤ input.principal * 100 / 100 :=
          Nat.div_le_div_right h1
        _ = input.principal := Nat.mul_div_cancel _ (by norm_num)
    have esub3 : checked_sub input.principal (input.principal * pa / 100) =
        .ok (input.principal - input.principal * pa / 100) := checked_sub_ok hprh
    obtain ⟨fh, efh, lfh⟩ :=
      compound_ok_range9 (le_trans hprh hp) hqh_le (by omega) hn2
    obtain ⟨fi, efi, lfi⟩ :=
      compound_ok_range9 (le_trans (Nat.sub_le _ _) hp) hqi_le (by omega) hn2
    have hfh_ge := compound_ok_ge efh
    have hfi_ge := compound_ok_ge efi
    have eadd : checked_add fh fi = .ok (fh + fi) := by
      apply checked_add_ok
      have h9 : fh + fi ≤ 9 * input.principal := by
        calc fh + fi ≤ 9 * (input.principal * pa / 100) +
              9 * (input.principal - input.principal * pa / 100) :=
            Nat.add_le_add lfh lfi
          _ = 9 * (input.principal * pa / 100 +
              (input.principal - input.principal * pa / 100)) :=
            (Nat.mul_add 9 _ _).symm
          _ = 9 * input.principal := by rw [Nat.add_sub_cancel' hprh]
      have h27 : 9 * input.principal ≤ 9 * 10 ^ 27 := by omega
      exact lt_of_le_of_lt (le_trans h9 h27) (by norm_num [U128_LIMIT])
    have hsumfin : input.principal ≤ fh + fi := by
      calc input.principal = input.principal * pa / 100 +
            (input.principal - input.principal * pa / 100) :=
          (Nat.add_sub_cancel' hprh).symm
        _ ≤ fh + fi := Nat.add_le_add hfh_ge hfi_ge
    have esub4 : checked_sub (fh + fi) input.principal =
        .ok (fh + fi - input.principal) := checked_sub_ok hsumfin
    obtain ⟨wv, ewv, lwv⟩ := weighted_average_pair_ok hqh_le hqi_le hsum
    have emodw : wv % U32_LIMIT = wv :=
      Nat.mod_eq_of_lt (lt_of_le_of_lt lwv (by norm_num [U32_LIMIT]))
    have hopt : optimize input = .ok
        { use_hydradx := decide (0 < pa), use_interlay := decide (0 < pb),
          hydradx_allocation_pct := pa, interlay_allocation_pct := pb,
          projected_net_apy_bps := wv,
          expected_yield_dot := fh + fi - input.principal } := by
      unfold optimize
      rw [if_neg hp0, if_neg hn0, if_neg hfee]
      simp only [ech, eci, esub1, esub2, enh, eni, emul1, emul2, ediv1, ediv2,
        emod1, emod2, esplit, emul3, ediv3, esub3, efh, efi, eadd, esub4, ewv,
        emodw, liftMath_ok, ok_bind]
      rfl
    have hexact : optimizeExact input = .ok
        { use_hydradx := decide (0 < pa), use_interlay := decide (0 < pb),
          hydradx_allocation_pct := pa, interlay_allocation_pct := pb,
          projected_net_apy_bps := wv,
          expected_yield_dot := fh + fi - input.principal } := by
      unfold optimizeExact
      rw [if_neg hp0, if_neg hn0, if_neg hfee]
      simp only [ech, eci, esub1, esub2, enh, eni, emul1, emul2, ediv1, ediv2,
        esplit, emul3, ediv3, esub3, efh, efi, eadd, esub4, ewv,
        liftMath_ok, ok_bind]
      rfl
    exact ⟨hopt.trans hexact.symm, Or.inr ⟨_, hopt⟩⟩

/-- Witness for C3 at the documented happy-path input (1000 DOT, APYs
1200/900 BPS, fees 50/100 BPS, risks 1500/2500, 365 periods). -/
theorem optimize_safe_on_documented_range_witness :
    1000 * PRECISION ≤ 10 ^ 27 ∧
    (optimize
        { principal := 1000 * PRECISION, hydradx_apy_bps := 1200,
          interlay_apy_bps := 900, hydradx_fee_bps := 50,
          interlay_fee_bps := 100, hydradx_risk_score := 1500,
          interlay_risk_score := 2500, projection_periods := 365 } =
      optimizeExact
        { principal := 1000 * PRECISION, hydradx_apy_bps := 1200,
          interlay_apy_bps := 900, hydradx_fee_bps := 50,
          interlay_fee_bps := 100, hydradx_risk_score := 1500,
          interlay_risk_score := 2500, projection_periods := 365 } ∧
      (((1000 * PRECISION : Nat) = 0 ∧ optimize
        { principal := 1000 * PRECISION, hydradx_apy_bps := 1200,
          interlay_apy_bps := 900, hydradx_fee_bps := 50,
          interlay_fee_bps := 100, hydradx_risk_score := 1500,
          interlay_risk_score := 2500, projection_periods := 365 } =
        .error .invalidInput) ∨
        ∃ rec, optimize
        { principal := 1000 * PRECISION, hydradx_apy_bps := 1200,
          interlay_apy_bps := 900, hydradx_fee_bps := 50,
          interlay_fee_bps := 100, hydradx_risk_score := 1500,
          interlay_risk_score := 2500, projection_periods := 365 } = .ok rec)) :=
  ⟨by decide, optimize_safe_on_documented_range _ (by decide) (by decide)
    (by decide) (by decide) (by decide) (by decide) (by decide) (by decide)
    (by decide)⟩

end PolkaPulse
